import Mathlib

/-!
Verification development for the firebase-admin-node slice consisting of the
FCM messaging request handler (`messaging-api-request-internal`) and the auth
`Tenant` value object (`src/auth/tenant.ts`).

The embedding models JavaScript promises as `Except`-valued computations: a
resolved promise is `.ok`, a rejected promise is `.error`.  Transport clients
and the batch encoder are external collaborators, so each operation takes the
collaborator as an explicit function argument and the embedding applies it to
the request configuration built exactly as in the source.
-/

/-- The request payload handed to the handler (`requestData: object`).  Its
contents are opaque to the handler, which only forwards it. -/
abbrev RequestData := String

/-- The parsed JSON body of a backend response, restricted to the two pieces
the handler inspects: the `name` field read by `buildSendResponse`, and the
backend-embedded error code that the Error Classifier's `getErrorCode`
extracts.  Either may be absent. -/
structure ResponseData where
  name : Option String
  errorCode : Option String
deriving DecidableEq, Repr

/-- A transport response (`RequestResponse` from `utils/api-request`): HTTP
status, whether the body parsed as JSON, and the body. -/
structure RequestResponse where
  status : Nat
  isJsonBody : Bool
  data : ResponseData
deriving DecidableEq, Repr

/-- `response.isJson()` on a transport response. -/
def RequestResponse.isJson (r : RequestResponse) : Bool :=
  r.isJsonBody

/-- A `RequestResponseError`: the structured transport error wrapping the
response it was produced from. -/
structure RequestResponseError where
  response : RequestResponse
deriving DecidableEq, Repr

/-- A normalized error (`FirebaseError` emitted by the Error Classifier): a
stable error code plus a human-readable message. -/
structure FirebaseError where
  code : String
  message : String
deriving DecidableEq, Repr

/-- Modelled from the spec: the Error Classifier's `getErrorCode` is defined in
`messaging-errors-internal`, outside this source slice.  Its contract is
`getErrorCode(jsonBody) -> errorCode | undefined`: it extracts the
backend-embedded error code from the JSON body when one is present. -/
def getErrorCode (d : ResponseData) : Option String :=
  d.errorCode

/-- Modelled from the spec: fallback mapping from HTTP status to a stable code,
used by the Error Classifier when no backend error code is embedded in the
body.  The fixed enumeration of codes comes from the spec. -/
def statusDerivedCode (status : Nat) : String :=
  if status == 400 then "invalid-argument"
  else if status == 404 then "unregistered"
  else if status == 429 then "quota-exceeded"
  else if status == 500 then "internal"
  else if status == 503 then "unavailable"
  else "unknown"

/-- Modelled from the spec: the Error Classifier's `createFirebaseError`
(defined in `messaging-errors-internal`, outside this source slice) inspects
the well-known error-code field in the JSON body, falling back to an HTTP
status-derived code when the field is absent or the body is not JSON, and
emits a normalized error with a stable code. -/
def createFirebaseError (err : RequestResponseError) : FirebaseError :=
  match (if err.response.isJson then getErrorCode err.response.data else none) with
  | some code => { code := code, message := "Backend reported error." }
  | none =>
      { code := statusDerivedCode err.response.status
        message := "Error while making request." }

/-- An error travelling through a rejected promise.  Every catch block in the
handler distinguishes exactly two cases: a `RequestResponseError` raised by
the transport, and an error that already has the proper (normalized) format,
which is re-thrown unchanged. -/
inductive ThrownError where
  | requestResponse (err : RequestResponseError)
  | normalized (err : FirebaseError)
deriving DecidableEq, Repr

/-- Per-item outcome (`SendResponse` from `messaging-api`): `success`, an
optional `messageId` and an optional `error`, each absent when never
assigned. -/
structure SendResponse where
  success : Bool
  messageId : Option String
  error : Option FirebaseError
deriving DecidableEq, Repr

/-- Aggregate outcome of a batch send (`BatchResponse` from `messaging-api`). -/
structure BatchResponse where
  responses : List SendResponse
  successCount : Nat
  failureCount : Nat
deriving DecidableEq, Repr

/-- The caller-supplied handle for the multiplexed (HTTP/2) transport session.
Its lifecycle is owned by the caller; the handler only forwards it. -/
structure Http2SessionHandler where
  sessionId : Nat
deriving DecidableEq, Repr

/-- Modelled from the spec: version strings embedded in the outbound headers
(`getSdkVersion()` and the node runtime version) are environment-derived;
they are modelled as fixed opaque constants. -/
def getSdkVersion : String := "SDK_VERSION"

/-- Modelled from the spec: the node runtime version string. -/
def nodeVersionString : String := "NODE_VERSION"

def FIREBASE_MESSAGING_TIMEOUT : Nat := 15000

def FIREBASE_MESSAGING_BATCH_URL : String := "https://fcm.googleapis.com/batch"

def FIREBASE_MESSAGING_HTTP_METHOD : String := "POST"

def FIREBASE_MESSAGING_HEADERS : List (String × String) :=
  [("X-Firebase-Client", "fire-admin-node/" ++ getSdkVersion),
   ("X-Goog-Api-Client",
    "gl-node/" ++ nodeVersionString ++ " fire-admin/" ++ getSdkVersion)]

def LEGACY_FIREBASE_MESSAGING_HEADERS : List (String × String) :=
  [("X-Firebase-Client", "fire-admin-node/" ++ getSdkVersion),
   ("X-Goog-Api-Client",
    "gl-node/" ++ nodeVersionString ++ " fire-admin/" ++ getSdkVersion),
   ("access_token_auth", "true")]

/-- Request descriptor for the conventional (HTTP/1.1) transport
(`HttpRequestConfig`). -/
structure HttpRequestConfig where
  method : String
  url : String
  data : RequestData
  headers : List (String × String)
  timeout : Nat
deriving DecidableEq, Repr

/-- Request descriptor for the multiplexed transport (`Http2RequestConfig`):
the HTTP/1.1 descriptor plus the caller-supplied session handle. -/
structure Http2RequestConfig where
  method : String
  url : String
  data : RequestData
  headers : List (String × String)
  timeout : Nat
  http2SessionHandler : Http2SessionHandler
deriving DecidableEq, Repr

/-- Modelled from the spec: one sub-request of a batch (`SubRequest` from
`batch-request-internal`, outside this source slice): an opaque, fully formed
request description. -/
structure SubRequest where
  url : String
  body : RequestData
deriving DecidableEq, Repr

namespace FirebaseMessagingRequestHandler

/-- The `HttpRequestConfig` literal built identically by `invokeRequestHandler`
and `invokeHttpRequestHandlerForSendResponse`: POST to `https://` ++ host ++
path with the legacy header set and the fixed timeout. -/
def messagingHttpRequest (host path : String) (requestData : RequestData) :
    HttpRequestConfig :=
  { method := FIREBASE_MESSAGING_HTTP_METHOD
    url := "https://" ++ host ++ path
    data := requestData
    headers := LEGACY_FIREBASE_MESSAGING_HEADERS
    timeout := FIREBASE_MESSAGING_TIMEOUT }

/-- The `Http2RequestConfig` literal built by
`invokeHttp2RequestHandlerForSendResponse`: the same fields plus the
caller-supplied session handle. -/
def messagingHttp2Request (host path : String) (requestData : RequestData)
    (http2SessionHandler : Http2SessionHandler) : Http2RequestConfig :=
  { method := FIREBASE_MESSAGING_HTTP_METHOD
    url := "https://" ++ host ++ path
    data := requestData
    headers := LEGACY_FIREBASE_MESSAGING_HEADERS
    timeout := FIREBASE_MESSAGING_TIMEOUT
    http2SessionHandler := http2SessionHandler }

/-- `buildSendResponse`: HTTP 200 means success, in which case `messageId` is
assigned from the body's `name` field; otherwise the `error` field is
populated via the Error Classifier. -/
def buildSendResponse (response : RequestResponse) : SendResponse :=
  let success := response.status == 200
  if success then
    { success := true, messageId := response.data.name, error := none }
  else
    { success := false, messageId := none
      error := some (createFirebaseError ⟨response⟩) }

/-- `buildSendResponseFromError`: a transport-raised `RequestResponseError`
becomes a failed `SendResponse` populated via the Error Classifier. -/
def buildSendResponseFromError (err : RequestResponseError) : SendResponse :=
  { success := false, messageId := none, error := some (createFirebaseError err) }

/-- `invokeRequestHandler`: sends one request over the conventional transport
with the legacy header set, then treats a non-JSON body or a body with a
backend-embedded error code as a `RequestResponseError`; the catch block
normalizes `RequestResponseError`s through the Error Classifier and re-throws
every other error unchanged.  `send` is the authorized HTTP client. -/
def invokeRequestHandler
    (send : HttpRequestConfig → Except ThrownError RequestResponse)
    (host path : String) (requestData : RequestData) :
    Except ThrownError ResponseData :=
  let request : HttpRequestConfig := messagingHttpRequest host path requestData
  let afterThen : Except ThrownError ResponseData :=
    match send request with
    | .ok response =>
        if !response.isJson then
          .error (.requestResponse ⟨response⟩)
        else
          match getErrorCode response.data with
          | some _ => .error (.requestResponse ⟨response⟩)
          | none => .ok response.data
    | .error e => .error e
  match afterThen with
  | .ok d => .ok d
  | .error (.requestResponse rre) => .error (.normalized (createFirebaseError rre))
  | .error (.normalized fe) => .error (.normalized fe)

/-- `invokeHttpRequestHandlerForSendResponse`: sends one request over the
conventional transport and always turns the outcome into a `SendResponse`,
except that errors already in the proper format are re-thrown unchanged. -/
def invokeHttpRequestHandlerForSendResponse
    (send : HttpRequestConfig → Except ThrownError RequestResponse)
    (host path : String) (requestData : RequestData) :
    Except ThrownError SendResponse :=
  let request : HttpRequestConfig := messagingHttpRequest host path requestData
  match send request with
  | .ok response => .ok (buildSendResponse response)
  | .error (.requestResponse rre) => .ok (buildSendResponseFromError rre)
  | .error (.normalized fe) => .error (.normalized fe)

/-- `invokeHttp2RequestHandlerForSendResponse`: same logic as the HTTP/1.1
variant, but the request descriptor carries the caller-supplied session
handle and is sent through the multiplexed transport client `send2`. -/
def invokeHttp2RequestHandlerForSendResponse
    (send2 : Http2RequestConfig → Except ThrownError RequestResponse)
    (host path : String) (requestData : RequestData)
    (http2SessionHandler : Http2SessionHandler) :
    Except ThrownError SendResponse :=
  let request : Http2RequestConfig :=
    messagingHttp2Request host path requestData http2SessionHandler
  match send2 request with
  | .ok response => .ok (buildSendResponse response)
  | .error (.requestResponse rre) => .ok (buildSendResponseFromError rre)
  | .error (.normalized fe) => .error (.normalized fe)

/-- `sendBatchRequest`: delegates the whole batch to the batch client
(`batchSend`, the Batch Encoder), maps every decoded part through
`buildSendResponse`, derives the counts from the mapped list, and normalizes
a whole-batch `RequestResponseError` through the Error Classifier while
re-throwing every other error unchanged. -/
def sendBatchRequest
    (batchSend : List SubRequest → Except ThrownError (List RequestResponse))
    (requests : List SubRequest) : Except ThrownError BatchResponse :=
  match batchSend requests with
  | .ok parts =>
      let responses := parts.map buildSendResponse
      let successCount := (responses.filter (fun resp => resp.success)).length
      .ok { responses := responses
            successCount := successCount
            failureCount := responses.length - successCount }
  | .error (.requestResponse rre) => .error (.normalized (createFirebaseError rre))
  | .error (.normalized fe) => .error (.normalized fe)

end FirebaseMessagingRequestHandler

/-!
Embedding of `src/auth/tenant.ts`.  The configuration sub-objects
(email sign-in, multi-factor, SMS region, reCAPTCHA, password policy, email
privacy) and their validators live in `auth-config` and `utils/validator`,
outside this source slice; each is modelled as an opaque value carrying the
outcome its external validator or server translator produces for it.
-/

deriving instance DecidableEq for Except

/-- A `FirebaseAuthError`: a stable auth client error code plus message. -/
structure FirebaseAuthError where
  code : String
  message : String
deriving DecidableEq, Repr

def AuthClientErrorCode.INVALID_ARGUMENT : String := "invalid-argument"

def AuthClientErrorCode.INTERNAL_ERROR : String := "internal-error"

/-- A TypeScript optional field that may additionally be set to `null`:
`undefined`, `null`, or a value. -/
inductive Nullable (α : Type) where
  | undef : Nullable α
  | null : Nullable α
  | val (a : α) : Nullable α
deriving DecidableEq, Repr

/-- The server translation produced by `EmailSignInConfig.buildServerRequest`
(the fields of `EmailSignInConfigServerRequest`). -/
structure EmailSignInConfigServerRequest where
  allowPasswordSignup : Option Bool
  enableEmailLinkSignin : Option Bool
deriving DecidableEq, Repr

/-- Modelled from the spec: `EmailSignInConfig.buildServerRequest` (in
`auth-config`, outside this slice) either throws a `FirebaseAuthError` on an
invalid config or returns its server translation; the config value carries
that outcome. -/
structure EmailSignInProviderConfig where
  serverOutcome : Except FirebaseAuthError EmailSignInConfigServerRequest
deriving DecidableEq, Repr

/-- Opaque server-side multi-factor configuration
(`MultiFactorAuthServerConfig`). -/
structure MultiFactorAuthServerConfig where
  raw : String
deriving DecidableEq, Repr

/-- Modelled from the spec: `MultiFactorAuthConfig.buildServerRequest` (in
`auth-config`, outside this slice) either throws or returns the server
translation; the config value carries that outcome. -/
structure MultiFactorConfig where
  serverOutcome : Except FirebaseAuthError MultiFactorAuthServerConfig
deriving DecidableEq, Repr

/-- Modelled from the spec: the test phone number map together with the
outcome of the external `validateTestPhoneNumbers` check (in `auth-config`,
outside this slice), which throws a `FirebaseAuthError` on invalid entries. -/
structure TestPhoneNumbers where
  entries : List (String × String)
  validationError : Option FirebaseAuthError
deriving DecidableEq, Repr

/-- Modelled from the spec: an SMS region configuration, copied verbatim into
the server request, together with the outcome of the external
`SmsRegionsAuthConfig.validate` check. -/
structure SmsRegionConfig where
  raw : String
  validationError : Option FirebaseAuthError
deriving DecidableEq, Repr

/-- Opaque server-side reCAPTCHA configuration (`RecaptchaAuthServerConfig`). -/
structure RecaptchaAuthServerConfig where
  raw : String
deriving DecidableEq, Repr

/-- Modelled from the spec: `RecaptchaAuthConfig.buildServerRequest` (in
`auth-config`, outside this slice) either throws or returns the server
translation; the config value carries that outcome. -/
structure RecaptchaConfig where
  serverOutcome : Except FirebaseAuthError RecaptchaAuthServerConfig
deriving DecidableEq, Repr

/-- Opaque server-side password policy configuration
(`PasswordPolicyAuthServerConfig`). -/
structure PasswordPolicyAuthServerConfig where
  raw : String
deriving DecidableEq, Repr

/-- Modelled from the spec: `PasswordPolicyAuthConfig.buildServerRequest` (in
`auth-config`, outside this slice) either throws or returns the server
translation; the config value carries that outcome. -/
structure PasswordPolicyConfig where
  serverOutcome : Except FirebaseAuthError PasswordPolicyAuthServerConfig
deriving DecidableEq, Repr

/-- Modelled from the spec: an email privacy configuration, copied verbatim
into the server request, together with the outcome of the external
`EmailPrivacyAuthConfig.validate` check. -/
structure EmailPrivacyConfig where
  raw : String
  validationError : Option FirebaseAuthError
deriving DecidableEq, Repr

/-- `UpdateTenantRequest`: the properties to update on a tenant.  Every field
is optional; `testPhoneNumbers` may additionally be `null`, which clears the
previously saved entries. -/
structure UpdateTenantRequest where
  displayName : Option String := none
  emailSignInConfig : Option EmailSignInProviderConfig := none
  anonymousSignInEnabled : Option Bool := none
  multiFactorConfig : Option MultiFactorConfig := none
  testPhoneNumbers : Nullable TestPhoneNumbers := .undef
  smsRegionConfig : Option SmsRegionConfig := none
  recaptchaConfig : Option RecaptchaConfig := none
  passwordPolicyConfig : Option PasswordPolicyConfig := none
  emailPrivacyConfig : Option EmailPrivacyConfig := none
deriving DecidableEq, Repr

/-- `TenantOptionsServerRequest`: the server-side representation assembled by
`Tenant.buildServerRequest`. -/
structure TenantOptionsServerRequest where
  allowPasswordSignup : Option Bool := none
  enableEmailLinkSignin : Option Bool := none
  displayName : Option String := none
  enableAnonymousUser : Option Bool := none
  mfaConfig : Option MultiFactorAuthServerConfig := none
  testPhoneNumbers : Option (List (String × String)) := none
  smsRegionConfig : Option SmsRegionConfig := none
  recaptchaConfig : Option RecaptchaAuthServerConfig := none
  passwordPolicyConfig : Option PasswordPolicyAuthServerConfig := none
  emailPrivacyConfig : Option EmailPrivacyConfig := none
deriving DecidableEq, Repr

/-- `Tenant.validate`: validates a tenant options object, throwing a
`FirebaseAuthError` on failure.  The typed model is always a non-null object
carrying only the valid keys, so the `isNonNullObject` and unsupported-key
checks of the source cannot fire and are not represented.  The remaining
checks are performed in source order. -/
def Tenant.validate (request : UpdateTenantRequest) (createRequest : Bool) :
    Except FirebaseAuthError Unit := do
  let label := if createRequest then "CreateTenantRequest" else "UpdateTenantRequest"
  match request.displayName with
  | some name =>
      if name.length = 0 then
        throw { code := AuthClientErrorCode.INVALID_ARGUMENT
                message := "\"" ++ label ++ ".displayName\" must be a valid non-empty string." }
      else pure ()
  | none => pure ()
  match request.emailSignInConfig with
  | some cfg =>
      match cfg.serverOutcome with
      | .error e => throw e
      | .ok _ => pure ()
  | none => pure ()
  match request.testPhoneNumbers with
  | .val m =>
      match m.validationError with
      | some e => throw e
      | none => pure ()
  | .null =>
      if createRequest then
        throw { code := AuthClientErrorCode.INVALID_ARGUMENT
                message := "\"" ++ label ++ ".testPhoneNumbers\" must be a non-null object." }
      else pure ()
  | .undef => pure ()
  match request.multiFactorConfig with
  | some cfg =>
      match cfg.serverOutcome with
      | .error e => throw e
      | .ok _ => pure ()
  | none => pure ()
  match request.smsRegionConfig with
  | some cfg =>
      match cfg.validationError with
      | some e => throw e
      | none => pure ()
  | none => pure ()
  match request.recaptchaConfig with
  | some cfg =>
      match cfg.serverOutcome with
      | .error e => throw e
      | .ok _ => pure ()
  | none => pure ()
  match request.passwordPolicyConfig with
  | some cfg =>
      match cfg.serverOutcome with
      | .error e => throw e
      | .ok _ => pure ()
  | none => pure ()
  match request.emailPrivacyConfig with
  | some cfg =>
      match cfg.validationError with
      | some e => throw e
      | none => pure ()
  | none => pure ()

/-- The first statement of the assembly: when `emailSignInConfig` is defined,
the request starts as the email sign-in server translation (which can throw),
otherwise as the empty object. -/
def Tenant.emailSignInBase (o : Option EmailSignInProviderConfig) :
    Except FirebaseAuthError TenantOptionsServerRequest :=
  match o with
  | some cfg => do
      let part ← cfg.serverOutcome
      pure { allowPasswordSignup := part.allowPasswordSignup
             enableEmailLinkSignin := part.enableEmailLinkSignin }
  | none => pure {}

/-- `if (typeof tenantOptions.displayName !== 'undefined') request.displayName = ...`. -/
def Tenant.applyDisplayName (o : Option String)
    (r : TenantOptionsServerRequest) : TenantOptionsServerRequest :=
  match o with
  | some d => { r with displayName := some d }
  | none => r

/-- `if (typeof tenantOptions.anonymousSignInEnabled !== 'undefined') ...`. -/
def Tenant.applyAnonymousSignIn (o : Option Bool)
    (r : TenantOptionsServerRequest) : TenantOptionsServerRequest :=
  match o with
  | some b => { r with enableAnonymousUser := some b }
  | none => r

/-- `if (typeof tenantOptions.multiFactorConfig !== 'undefined') request.mfaConfig = ...`,
where the external server translation can throw. -/
def Tenant.applyMultiFactor (o : Option MultiFactorConfig)
    (r : TenantOptionsServerRequest) :
    Except FirebaseAuthError TenantOptionsServerRequest :=
  match o with
  | some cfg => do
      let m ← cfg.serverOutcome
      pure { r with mfaConfig := some m }
  | none => pure r

/-- The step of `Tenant.buildServerRequest` that handles `testPhoneNumbers`:
when the field is provided, `null` is translated to the empty object to clear
existing entries. -/
def Tenant.applyTestPhoneNumbers (t : Nullable TestPhoneNumbers)
    (r : TenantOptionsServerRequest) : TenantOptionsServerRequest :=
  match t with
  | .val m => { r with testPhoneNumbers := some m.entries }
  | .null => { r with testPhoneNumbers := some [] }
  | .undef => r

/-- `if (typeof tenantOptions.smsRegionConfig !== 'undefined') ...`: copied verbatim. -/
def Tenant.applySmsRegion (o : Option SmsRegionConfig)
    (r : TenantOptionsServerRequest) : TenantOptionsServerRequest :=
  match o with
  | some cfg => { r with smsRegionConfig := some cfg }
  | none => r

/-- `if (typeof tenantOptions.recaptchaConfig !== 'undefined') ...`, where the
external server translation can throw. -/
def Tenant.applyRecaptcha (o : Option RecaptchaConfig)
    (r : TenantOptionsServerRequest) :
    Except FirebaseAuthError TenantOptionsServerRequest :=
  match o with
  | some cfg => do
      let c ← cfg.serverOutcome
      pure { r with recaptchaConfig := some c }
  | none => pure r

/-- `if (typeof tenantOptions.passwordPolicyConfig !== 'undefined') ...`, where
the external server translation can throw. -/
def Tenant.applyPasswordPolicy (o : Option PasswordPolicyConfig)
    (r : TenantOptionsServerRequest) :
    Except FirebaseAuthError TenantOptionsServerRequest :=
  match o with
  | some cfg => do
      let c ← cfg.serverOutcome
      pure { r with passwordPolicyConfig := some c }
  | none => pure r

/-- `if (typeof tenantOptions.emailPrivacyConfig !== 'undefined') ...`: copied
verbatim. -/
def Tenant.applyEmailPrivacy (o : Option EmailPrivacyConfig)
    (r : TenantOptionsServerRequest) : TenantOptionsServerRequest :=
  match o with
  | some cfg => { r with emailPrivacyConfig := some cfg }
  | none => r

/-- The assembly half of `Tenant.buildServerRequest`: builds the server
request field by field in source order, starting from the email sign-in
translation.  External server translators that can throw are sequenced
through the error monad exactly where the source calls them. -/
def Tenant.assembleServerRequest (tenantOptions : UpdateTenantRequest) :
    Except FirebaseAuthError TenantOptionsServerRequest := do
  let base ← Tenant.emailSignInBase tenantOptions.emailSignInConfig
  let r := Tenant.applyDisplayName tenantOptions.displayName base
  let r := Tenant.applyAnonymousSignIn tenantOptions.anonymousSignInEnabled r
  let r ← Tenant.applyMultiFactor tenantOptions.multiFactorConfig r
  let r := Tenant.applyTestPhoneNumbers tenantOptions.testPhoneNumbers r
  let r := Tenant.applySmsRegion tenantOptions.smsRegionConfig r
  let r ← Tenant.applyRecaptcha tenantOptions.recaptchaConfig r
  let r ← Tenant.applyPasswordPolicy tenantOptions.passwordPolicyConfig r
  let r := Tenant.applyEmailPrivacy tenantOptions.emailPrivacyConfig r
  return r

/-- `Tenant.buildServerRequest`: validates the options, then assembles the
server request. -/
def Tenant.buildServerRequest (tenantOptions : UpdateTenantRequest)
    (createRequest : Bool) : Except FirebaseAuthError TenantOptionsServerRequest := do
  Tenant.validate tenantOptions createRequest
  Tenant.assembleServerRequest tenantOptions

/-- The pattern of the regular expression in `getTenantIdFromResourceName`. -/
def tenantsPat : List Char := "/tenants/".data

/-- JavaScript line terminators, which `.` does not match (the regex has no
`s` flag) and past which `$` cannot match (no `m` flag). -/
def isLineTerminator (c : Char) : Bool :=
  c = '\n' || c = '\r' || c = Char.ofNat 0x2028 || c = Char.ofNat 0x2029

/-- The JavaScript match `resourceName.match(/\/tenants\/(.*)$/)` restricted
to its capture group: scanning left to right, the first position where the
literal `/tenants/` occurs and the remaining suffix reaches the end of the
input without a line terminator yields that suffix as the capture. -/
def matchTenantCapture : List Char → Option (List Char)
  | [] => none
  | c :: rest =>
      if tenantsPat.isPrefixOf (c :: rest) then
        let suffix := (c :: rest).drop tenantsPat.length
        if suffix.any isLineTerminator then matchTenantCapture rest
        else some suffix
      else matchTenantCapture rest

/-- `Tenant.getTenantIdFromResourceName`: the capture of the first regex
match, or `null` when the pattern does not match.  A successful JavaScript
match of this pattern always has both the whole match and the capture group,
so the `length < 2` guard of the source cannot fire. -/
def Tenant.getTenantIdFromResourceName (resourceName : String) : Option String :=
  (matchTenantCapture resourceName.data).map (fun l => String.mk l)

/-- The tenant server response, restricted to the fields the modelled part of
the constructor reads. -/
structure TenantServerResponse where
  name : String
  displayName : Option String := none
  enableAnonymousUser : Option Bool := none
deriving DecidableEq, Repr

/-- The modelled `Tenant` value: the fields assigned by the constructor before
any external configuration object is built. -/
structure Tenant where
  tenantId : String
  displayName : Option String
  anonymousSignInEnabled : Bool
deriving DecidableEq, Repr

/-- The `Tenant` constructor: extracts the tenant id from the resource name
and throws an internal-error `FirebaseAuthError` when the extraction returns
`null` or the extracted id is the empty string (both falsy).  The
configuration fields built from external `auth-config` classes are outside
this slice and not represented. -/
def Tenant.construct (response : TenantServerResponse) :
    Except FirebaseAuthError Tenant := do
  let tenantId := Tenant.getTenantIdFromResourceName response.name
  match tenantId with
  | none =>
      throw { code := AuthClientErrorCode.INTERNAL_ERROR
              message := "INTERNAL ASSERT FAILED: Invalid tenant response" }
  | some tid =>
      if tid = "" then
        throw { code := AuthClientErrorCode.INTERNAL_ERROR
                message := "INTERNAL ASSERT FAILED: Invalid tenant response" }
      else
        pure { tenantId := tid
               displayName := response.displayName
               anonymousSignInEnabled := response.enableAnonymousUser.getD false }

/-!
Claim theorems.  The fixtures below are concrete values used by witnesses and
counterexamples.
-/

/-- Exactly one of `messageId` and `error` is defined, as determined by
`success`: `messageId` is present iff `success` is true, and `error` is
present iff `success` is false. -/
def SendResponse.exactlyOneDefined (s : SendResponse) : Prop :=
  s.messageId.isSome = s.success ∧ s.error.isSome = !s.success

instance (s : SendResponse) : Decidable s.exactlyOneDefined := by
  unfold SendResponse.exactlyOneDefined
  infer_instance

/-- A successful backend response carrying a message name. -/
def respOk : RequestResponse :=
  { status := 200, isJsonBody := true
    data := { name := some "projects/demo/messages/1", errorCode := none } }

/-- A failed backend response carrying a backend error code. -/
def respBad : RequestResponse :=
  { status := 400, isJsonBody := true
    data := { name := none, errorCode := some "invalid-argument" } }

/-- A 200 response whose JSON body has no `name` field. -/
def respNoName : RequestResponse :=
  { status := 200, isJsonBody := true
    data := { name := none, errorCode := none } }

/-- A sample error already in normalized form. -/
def feSample : FirebaseError :=
  { code := "app/invalid-credential", message := "Failed to fetch credentials." }

open FirebaseMessagingRequestHandler

/-- C3: `invokeHttpRequestHandlerForSendResponse` never rejects for a
backend-level failure: every transport response resolves to the
`SendResponse` built by `buildSendResponse`, which maps HTTP 200 to success
with `messageId` taken from the body's `name` field and any other status to a
failure produced by the Error Classifier; a thrown `RequestResponseError`
also resolves, to a classifier-built failure. -/
theorem C3_invokeHttp_always_resolves :
    (∀ (send : HttpRequestConfig → Except ThrownError RequestResponse)
       (host path : String) (d : RequestData) (r : RequestResponse),
       send (messagingHttpRequest host path d) = .ok r →
       invokeHttpRequestHandlerForSendResponse send host path d
         = .ok (buildSendResponse r) ∧
       (buildSendResponse r).success = (r.status == 200) ∧
       (r.status = 200 → (buildSendResponse r).messageId = r.data.name) ∧
       (r.status ≠ 200 →
         (buildSendResponse r).error = some (createFirebaseError ⟨r⟩))) ∧
    (∀ (send : HttpRequestConfig → Except ThrownError RequestResponse)
       (host path : String) (d : RequestData) (e : RequestResponseError),
       send (messagingHttpRequest host path d) = .error (.requestResponse e) →
       invokeHttpRequestHandlerForSendResponse send host path d
         = .ok { success := false, messageId := none
                 error := some (createFirebaseError e) }) := by
  constructor
  · intro send host path d r h
    refine ⟨?_, ?_, ?_, ?_⟩
    · simp [invokeHttpRequestHandlerForSendResponse, h]
    · by_cases h200 : r.status = 200 <;> simp [buildSendResponse, h200]
    · intro h200
      simp [buildSendResponse, h200]
    · intro hne
      simp [buildSendResponse, hne]
  · intro send host path d e h
    simp [invokeHttpRequestHandlerForSendResponse, h, buildSendResponseFromError]

/-- Witness for C3 at a concrete successful response. -/
theorem C3_witness :
    invokeHttpRequestHandlerForSendResponse (fun _ => .ok respOk)
      "fcm.googleapis.com" "/v1/projects/demo/messages:send" "payload"
      = .ok (buildSendResponse respOk) :=
  (C3_invokeHttp_always_resolves.1 (fun _ => .ok respOk)
    "fcm.googleapis.com" "/v1/projects/demo/messages:send" "payload" respOk rfl).1

/-- C4: `invokeRequestHandler` resolves with the raw response data exactly
when the response body parses as JSON and carries no backend-embedded error
code; when either condition fails it rejects with the normalized error the
Error Classifier derives from the raw response. -/
theorem C4_invokeRequestHandler_json_iff :
    ∀ (send : HttpRequestConfig → Except ThrownError RequestResponse)
      (host path : String) (d : RequestData) (r : RequestResponse),
      send (messagingHttpRequest host path d) = .ok r →
      ((invokeRequestHandler send host path d = .ok r.data) ↔
        (r.isJson = true ∧ getErrorCode r.data = none)) ∧
      (¬ (r.isJson = true ∧ getErrorCode r.data = none) →
        invokeRequestHandler send host path d
          = .error (.normalized (createFirebaseError ⟨r⟩))) := by
  intro send host path d r h
  cases hj : r.isJson with
  | false =>
      constructor
      · constructor
        · intro hok
          simp [invokeRequestHandler, h, hj] at hok
        · intro hcond
          simp [hj] at hcond
      · intro _
        simp [invokeRequestHandler, h, hj]
  | true =>
      cases hc : getErrorCode r.data with
      | some code =>
          constructor
          · constructor
            · intro hok
              simp [invokeRequestHandler, h, hj, hc] at hok
            · intro hcond
              simp [hc] at hcond
          · intro _
            simp [invokeRequestHandler, h, hj, hc]
      | none =>
          constructor
          · constructor
            · intro _
              exact ⟨rfl, rfl⟩
            · intro _
              simp [invokeRequestHandler, h, hj, hc]
          · intro hcond
            exact absurd ⟨rfl, rfl⟩ hcond

/-- Witness for C4 at a concrete JSON response without an embedded error
code. -/
theorem C4_witness :
    invokeRequestHandler (fun _ => .ok respOk)
      "fcm.googleapis.com" "/v1/projects/demo/messages:send" "payload"
      = .ok respOk.data :=
  ((C4_invokeRequestHandler_json_iff (fun _ => .ok respOk)
    "fcm.googleapis.com" "/v1/projects/demo/messages:send" "payload" respOk
    rfl).1).mpr ⟨rfl, rfl⟩

/-- C5: when the batch client itself fails, `sendBatchRequest` rejects with a
single normalized error (classifier-built for a `RequestResponseError`,
passed through unchanged otherwise) and never resolves with a partial
`BatchResponse`. -/
theorem C5_batch_transport_failure :
    ∀ (batchSend : List SubRequest → Except ThrownError (List RequestResponse))
      (requests : List SubRequest) (e : ThrownError),
      batchSend requests = .error e →
      (∀ b : BatchResponse, sendBatchRequest batchSend requests ≠ .ok b) ∧
      ∃ fe : FirebaseError,
        sendBatchRequest batchSend requests = .error (.normalized fe) ∧
        (∀ rre, e = .requestResponse rre → fe = createFirebaseError rre) ∧
        (∀ fe0, e = .normalized fe0 → fe = fe0) := by
  intro batchSend requests e h
  cases e with
  | requestResponse rre =>
      refine ⟨?_, createFirebaseError rre, ?_, ?_, ?_⟩
      · intro b hb
        simp [sendBatchRequest, h] at hb
      · simp [sendBatchRequest, h]
      · intro rre2 he
        cases he
        rfl
      · intro fe0 he
        cases he
  | normalized fe =>
      refine ⟨?_, fe, ?_, ?_, ?_⟩
      · intro b hb
        simp [sendBatchRequest, h] at hb
      · simp [sendBatchRequest, h]
      · intro rre2 he
        cases he
      · intro fe0 he
        cases he
        rfl

/-- Witness for C5 at a concrete whole-batch transport failure. -/
theorem C5_witness :
    ∃ fe : FirebaseError,
      sendBatchRequest (fun _ => .error (.requestResponse ⟨respBad⟩))
        [⟨"/send", "m1"⟩] = .error (.normalized fe) := by
  obtain ⟨-, fe, hfe, -, -⟩ :=
    C5_batch_transport_failure (fun _ => .error (.requestResponse ⟨respBad⟩))
      [⟨"/send", "m1"⟩] (.requestResponse ⟨respBad⟩) rfl
  exact ⟨fe, hfe⟩

/-- C6: the empty sub-request list yields the empty `BatchResponse` with both
counts zero (the Batch Encoder contract aligns its output with the input, so
the successful outcome on the empty batch is the empty list). -/
theorem C6_empty_batch :
    ∀ (batchSend : List SubRequest → Except ThrownError (List RequestResponse)),
      batchSend [] = .ok ([] : List RequestResponse) →
      sendBatchRequest batchSend []
        = .ok { responses := [], successCount := 0, failureCount := 0 } := by
  intro batchSend h
  simp [sendBatchRequest, h]

/-- Witness for C6 with a concrete batch client. -/
theorem C6_witness :
    sendBatchRequest (fun _ => .ok ([] : List RequestResponse)) []
      = .ok { responses := [], successCount := 0, failureCount := 0 } :=
  C6_empty_batch (fun _ => .ok ([] : List RequestResponse)) rfl

/-- C7: across all four operations, an error already in normalized form is
propagated unchanged by the catch blocks: it is re-thrown as-is and never
re-wrapped. -/
theorem C7_normalized_error_passthrough :
    (∀ (send : HttpRequestConfig → Except ThrownError RequestResponse)
       (host path : String) (d : RequestData) (fe : FirebaseError),
       send (messagingHttpRequest host path d) = .error (.normalized fe) →
       invokeRequestHandler send host path d = .error (.normalized fe)) ∧
    (∀ (send : HttpRequestConfig → Except ThrownError RequestResponse)
       (host path : String) (d : RequestData) (fe : FirebaseError),
       send (messagingHttpRequest host path d) = .error (.normalized fe) →
       invokeHttpRequestHandlerForSendResponse send host path d
         = .error (.normalized fe)) ∧
    (∀ (send2 : Http2RequestConfig → Except ThrownError RequestResponse)
       (host path : String) (d : RequestData) (hnd : Http2SessionHandler)
       (fe : FirebaseError),
       send2 (messagingHttp2Request host path d hnd) = .error (.normalized fe) →
       invokeHttp2RequestHandlerForSendResponse send2 host path d hnd
         = .error (.normalized fe)) ∧
    (∀ (batchSend : List SubRequest → Except ThrownError (List RequestResponse))
       (requests : List SubRequest) (fe : FirebaseError),
       batchSend requests = .error (.normalized fe) →
       sendBatchRequest batchSend requests = .error (.normalized fe)) := by
  refine ⟨?_, ?_, ?_, ?_⟩
  · intro send host path d fe h
    simp [invokeRequestHandler, h]
  · intro send host path d fe h
    simp [invokeHttpRequestHandlerForSendResponse, h]
  · intro send2 host path d hnd fe h
    simp [invokeHttp2RequestHandlerForSendResponse, h]
  · intro batchSend requests fe h
    simp [sendBatchRequest, h]

/-- Witness for C7 at a concrete already-normalized error. -/
theorem C7_witness :
    invokeRequestHandler (fun _ => .error (.normalized feSample))
      "fcm.googleapis.com" "/v1/projects/demo/messages:send" "payload"
      = .error (.normalized feSample) :=
  C7_normalized_error_passthrough.1 (fun _ => .error (.normalized feSample))
    "fcm.googleapis.com" "/v1/projects/demo/messages:send" "payload" feSample rfl

/-- C8: `invokeHttp2RequestHandlerForSendResponse` has the same contract as
`invokeHttpRequestHandlerForSendResponse`: whenever the two transports return
the same outcome for their corresponding request descriptors, the two
operations produce the same result; the two descriptors differ only in the
caller-supplied session handle. -/
theorem C8_http2_matches_http :
    ∀ (send : HttpRequestConfig → Except ThrownError RequestResponse)
      (send2 : Http2RequestConfig → Except ThrownError RequestResponse)
      (host path : String) (d : RequestData) (hnd : Http2SessionHandler),
      send2 (messagingHttp2Request host path d hnd)
        = send (messagingHttpRequest host path d) →
      invokeHttp2RequestHandlerForSendResponse send2 host path d hnd
        = invokeHttpRequestHandlerForSendResponse send host path d ∧
      (messagingHttp2Request host path d hnd).method
        = (messagingHttpRequest host path d).method ∧
      (messagingHttp2Request host path d hnd).url
        = (messagingHttpRequest host path d).url ∧
      (messagingHttp2Request host path d hnd).data
        = (messagingHttpRequest host path d).data ∧
      (messagingHttp2Request host path d hnd).headers
        = (messagingHttpRequest host path d).headers ∧
      (messagingHttp2Request host path d hnd).timeout
        = (messagingHttpRequest host path d).timeout ∧
      (messagingHttp2Request host path d hnd).http2SessionHandler = hnd := by
  intro send send2 host path d hnd h
  refine ⟨?_, rfl, rfl, rfl, rfl, rfl, rfl⟩
  simp only [invokeHttp2RequestHandlerForSendResponse,
    invokeHttpRequestHandlerForSendResponse, h]

/-- Witness for C8 with concrete transports that agree on the outcome. -/
theorem C8_witness :
    invokeHttp2RequestHandlerForSendResponse (fun _ => .ok respOk)
      "fcm.googleapis.com" "/v1/projects/demo/messages:send" "payload" ⟨1⟩
      = invokeHttpRequestHandlerForSendResponse (fun _ => .ok respOk)
        "fcm.googleapis.com" "/v1/projects/demo/messages:send" "payload" :=
  (C8_http2_matches_http (fun _ => .ok respOk) (fun _ => .ok respOk)
    "fcm.googleapis.com" "/v1/projects/demo/messages:send" "payload" ⟨1⟩ rfl).1

/-- C1: for a batch whose encoder returns one decoded part per sub-request,
`sendBatchRequest` resolves with a `BatchResponse` whose `responses` list has
the input length and is positionally aligned (the i-th response is the
per-item translation of the i-th decoded part), whose `successCount` counts
the successful responses, and whose `failureCount` is the length minus
`successCount`, so the two counts sum to the length. -/
theorem C1_batch_counts :
    ∀ (batchSend : List SubRequest → Except ThrownError (List RequestResponse))
      (requests : List SubRequest) (parts : List RequestResponse),
      batchSend requests = .ok parts →
      parts.length = requests.length →
      ∃ b : BatchResponse,
        sendBatchRequest batchSend requests = .ok b ∧
        b.responses.length = requests.length ∧
        (∀ i : Nat, b.responses[i]? = (parts[i]?).map buildSendResponse) ∧
        b.successCount = (b.responses.filter (fun r => r.success)).length ∧
        b.failureCount = b.responses.length - b.successCount ∧
        b.successCount + b.failureCount = b.responses.length := by
  intro batchSend requests parts h halign
  refine ⟨{ responses := parts.map buildSendResponse
            successCount :=
              ((parts.map buildSendResponse).filter (fun resp => resp.success)).length
            failureCount :=
              (parts.map buildSendResponse).length
                - ((parts.map buildSendResponse).filter (fun resp => resp.success)).length },
          ?_, ?_, ?_, rfl, rfl, ?_⟩
  · simp [sendBatchRequest, h]
  · simp [halign]
  · intro i
    simp [List.getElem?_map]
  · exact Nat.add_sub_cancel' (List.length_filter_le _ _)

/-- Witness for C1: a concrete two-element batch with one success and one
failure. -/
theorem C1_witness :
    ∃ b : BatchResponse,
      sendBatchRequest (fun _ => .ok [respOk, respBad])
        [⟨"/send", "m1"⟩, ⟨"/send", "m2"⟩] = .ok b ∧
      b.responses.length = ([⟨"/send", "m1"⟩, ⟨"/send", "m2"⟩] : List SubRequest).length ∧
      (∀ i : Nat, b.responses[i]? = (([respOk, respBad] : List RequestResponse)[i]?).map
        buildSendResponse) ∧
      b.successCount = (b.responses.filter (fun r => r.success)).length ∧
      b.failureCount = b.responses.length - b.successCount ∧
      b.successCount + b.failureCount = b.responses.length :=
  C1_batch_counts (fun _ => .ok [respOk, respBad])
    [⟨"/send", "m1"⟩, ⟨"/send", "m2"⟩] [respOk, respBad] rfl rfl

/-- C2 counterexample: a 200 response whose JSON body has no `name` field
yields, through the single-send operation, a `SendResponse` with
`success := true` but with neither `messageId` nor `error` defined, so it is
not the case that exactly one of the two fields is present as determined by
`success`. -/
theorem C2_counterexample :
    invokeHttpRequestHandlerForSendResponse (fun _ => .ok respNoName)
      "fcm.googleapis.com" "/v1/projects/demo/messages:send" "payload"
      = .ok { success := true, messageId := none, error := none } ∧
    ¬ SendResponse.exactlyOneDefined
        { success := true, messageId := none, error := none } := by
  constructor
  · rfl
  · decide

/-- C2 (amended): for every `SendResponse` the handler produces, `error` is
present iff `success` is false; `messageId` is absent on failure and equals
the 200 response body's `name` field on success, so exactly one of
`messageId` and `error` is present whenever the body of a 200 response
carries a `name` field; and every `SendResponse` an operation resolves with
comes from `buildSendResponse` or `buildSendResponseFromError`. -/
theorem C2_sendResponse_fields :
    (∀ r : RequestResponse,
       (buildSendResponse r).success = (r.status == 200) ∧
       (buildSendResponse r).error.isSome = !(buildSendResponse r).success ∧
       (buildSendResponse r).messageId
         = (if r.status == 200 then r.data.name else none)) ∧
    (∀ e : RequestResponseError,
       buildSendResponseFromError e
         = { success := false, messageId := none
             error := some (createFirebaseError e) }) ∧
    (∀ r : RequestResponse, r.data.name.isSome = true →
       SendResponse.exactlyOneDefined (buildSendResponse r)) ∧
    (∀ (send : HttpRequestConfig → Except ThrownError RequestResponse)
       (host path : String) (d : RequestData) (s : SendResponse),
       invokeHttpRequestHandlerForSendResponse send host path d = .ok s →
       (∃ r, s = buildSendResponse r) ∨ (∃ e, s = buildSendResponseFromError e)) ∧
    (∀ (send2 : Http2RequestConfig → Except ThrownError RequestResponse)
       (host path : String) (d : RequestData) (hnd : Http2SessionHandler)
       (s : SendResponse),
       invokeHttp2RequestHandlerForSendResponse send2 host path d hnd = .ok s →
       (∃ r, s = buildSendResponse r) ∨ (∃ e, s = buildSendResponseFromError e)) ∧
    (∀ (batchSend : List SubRequest → Except ThrownError (List RequestResponse))
       (requests : List SubRequest) (b : BatchResponse) (s : SendResponse),
       sendBatchRequest batchSend requests = .ok b →
       s ∈ b.responses → ∃ r, s = buildSendResponse r) := by
  refine ⟨?_, ?_, ?_, ?_, ?_, ?_⟩
  · intro r
    by_cases h200 : r.status = 200 <;>
      simp [buildSendResponse, h200]
  · intro e
    rfl
  · intro r hname
    by_cases h200 : r.status = 200 <;>
      simp [SendResponse.exactlyOneDefined, buildSendResponse, h200, hname]
  · intro send host path d s hs
    cases hsend : send (messagingHttpRequest host path d) with
    | ok r =>
        left
        refine ⟨r, ?_⟩
        simp [invokeHttpRequestHandlerForSendResponse, hsend] at hs
        exact hs.symm
    | error e =>
        cases e with
        | requestResponse rre =>
            right
            refine ⟨rre, ?_⟩
            simp [invokeHttpRequestHandlerForSendResponse, hsend] at hs
            exact hs.symm
        | normalized fe =>
            simp [invokeHttpRequestHandlerForSendResponse, hsend] at hs
  · intro send2 host path d hnd s hs
    cases hsend : send2 (messagingHttp2Request host path d hnd) with
    | ok r =>
        left
        refine ⟨r, ?_⟩
        simp [invokeHttp2RequestHandlerForSendResponse, hsend] at hs
        exact hs.symm
    | error e =>
        cases e with
        | requestResponse rre =>
            right
            refine ⟨rre, ?_⟩
            simp [invokeHttp2RequestHandlerForSendResponse, hsend] at hs
            exact hs.symm
        | normalized fe =>
            simp [invokeHttp2RequestHandlerForSendResponse, hsend] at hs
  · intro batchSend requests b s hb hmem
    cases hsend : batchSend requests with
    | ok parts =>
        simp [sendBatchRequest, hsend] at hb
        rw [← hb] at hmem
        simp [List.mem_map] at hmem
        obtain ⟨r, _, hr⟩ := hmem
        exact ⟨r, hr.symm⟩
    | error e =>
        cases e with
        | requestResponse rre =>
            simp [sendBatchRequest, hsend] at hb
        | normalized fe =>
            simp [sendBatchRequest, hsend] at hb

/-- Witness for C2 (amended) at a concrete 200 response whose body carries a
`name` field. -/
theorem C2_witness :
    SendResponse.exactlyOneDefined (buildSendResponse respOk) :=
  C2_sendResponse_fields.2.2.1 respOk rfl

/-- `emailSignInBase` never sets `testPhoneNumbers`. -/
theorem Tenant.emailSignInBase_testPhoneNumbers (o : Option EmailSignInProviderConfig)
    (base : TenantOptionsServerRequest)
    (h : Tenant.emailSignInBase o = .ok base) :
    base.testPhoneNumbers = none := by
  cases o with
  | none =>
      simp [Tenant.emailSignInBase, pure, Except.pure] at h
      rw [← h]
  | some cfg =>
      cases hc : cfg.serverOutcome with
      | error e => simp [Tenant.emailSignInBase, hc] at h
      | ok part =>
          simp [Tenant.emailSignInBase, hc, pure, Except.pure, bind, Except.bind] at h
          rw [← h]

/-- The display-name step leaves `testPhoneNumbers` unchanged. -/
theorem Tenant.applyDisplayName_testPhoneNumbers (o : Option String)
    (r : TenantOptionsServerRequest) :
    (Tenant.applyDisplayName o r).testPhoneNumbers = r.testPhoneNumbers := by
  cases o <;> rfl

/-- The anonymous-sign-in step leaves `testPhoneNumbers` unchanged. -/
theorem Tenant.applyAnonymousSignIn_testPhoneNumbers (o : Option Bool)
    (r : TenantOptionsServerRequest) :
    (Tenant.applyAnonymousSignIn o r).testPhoneNumbers = r.testPhoneNumbers := by
  cases o <;> rfl

/-- The multi-factor step leaves `testPhoneNumbers` unchanged when it
succeeds. -/
theorem Tenant.applyMultiFactor_testPhoneNumbers (o : Option MultiFactorConfig)
    (r r2 : TenantOptionsServerRequest)
    (h : Tenant.applyMultiFactor o r = .ok r2) :
    r2.testPhoneNumbers = r.testPhoneNumbers := by
  cases o with
  | none =>
      simp [Tenant.applyMultiFactor, pure, Except.pure] at h
      rw [← h]
  | some cfg =>
      cases hc : cfg.serverOutcome with
      | error e => simp [Tenant.applyMultiFactor, hc] at h
      | ok m =>
          simp [Tenant.applyMultiFactor, hc, pure, Except.pure, bind, Except.bind] at h
          rw [← h]

/-- The SMS-region step leaves `testPhoneNumbers` unchanged. -/
theorem Tenant.applySmsRegion_testPhoneNumbers (o : Option SmsRegionConfig)
    (r : TenantOptionsServerRequest) :
    (Tenant.applySmsRegion o r).testPhoneNumbers = r.testPhoneNumbers := by
  cases o <;> rfl

/-- The reCAPTCHA step leaves `testPhoneNumbers` unchanged when it succeeds. -/
theorem Tenant.applyRecaptcha_testPhoneNumbers (o : Option RecaptchaConfig)
    (r r2 : TenantOptionsServerRequest)
    (h : Tenant.applyRecaptcha o r = .ok r2) :
    r2.testPhoneNumbers = r.testPhoneNumbers := by
  cases o with
  | none =>
      simp [Tenant.applyRecaptcha, pure, Except.pure] at h
      rw [← h]
  | some cfg =>
      cases hc : cfg.serverOutcome with
      | error e => simp [Tenant.applyRecaptcha, hc] at h
      | ok m =>
          simp [Tenant.applyRecaptcha, hc, pure, Except.pure, bind, Except.bind] at h
          rw [← h]

/-- The password-policy step leaves `testPhoneNumbers` unchanged when it
succeeds. -/
theorem Tenant.applyPasswordPolicy_testPhoneNumbers (o : Option PasswordPolicyConfig)
    (r r2 : TenantOptionsServerRequest)
    (h : Tenant.applyPasswordPolicy o r = .ok r2) :
    r2.testPhoneNumbers = r.testPhoneNumbers := by
  cases o with
  | none =>
      simp [Tenant.applyPasswordPolicy, pure, Except.pure] at h
      rw [← h]
  | some cfg =>
      cases hc : cfg.serverOutcome with
      | error e => simp [Tenant.applyPasswordPolicy, hc] at h
      | ok m =>
          simp [Tenant.applyPasswordPolicy, hc, pure, Except.pure, bind, Except.bind] at h
          rw [← h]

/-- The email-privacy step leaves `testPhoneNumbers` unchanged. -/
theorem Tenant.applyEmailPrivacy_testPhoneNumbers (o : Option EmailPrivacyConfig)
    (r : TenantOptionsServerRequest) :
    (Tenant.applyEmailPrivacy o r).testPhoneNumbers = r.testPhoneNumbers := by
  cases o <;> rfl

/-- The `testPhoneNumbers` field of an assembled server request: the entries
when a map was provided, the empty map for `null`, absent when `undefined`. -/
theorem Tenant.assemble_testPhoneNumbers (opts : UpdateTenantRequest)
    (req : TenantOptionsServerRequest)
    (h : Tenant.assembleServerRequest opts = .ok req) :
    req.testPhoneNumbers = (match opts.testPhoneNumbers with
      | .undef => none
      | .null => some []
      | .val m => some m.entries) := by
  unfold Tenant.assembleServerRequest at h
  cases hbase : Tenant.emailSignInBase opts.emailSignInConfig with
  | error e =>
      rw [hbase] at h
      simp [bind, Except.bind] at h
  | ok base =>
  rw [hbase] at h
  simp only [bind, Except.bind] at h
  set r1 := Tenant.applyAnonymousSignIn opts.anonymousSignInEnabled
    (Tenant.applyDisplayName opts.displayName base) with hr1
  cases hmfa : Tenant.applyMultiFactor opts.multiFactorConfig r1 with
  | error e =>
      rw [hmfa] at h
      simp [bind, Except.bind, Functor.map, Except.map] at h
  | ok r2 =>
  rw [hmfa] at h
  simp only [bind, Except.bind] at h
  set r3 := Tenant.applySmsRegion opts.smsRegionConfig
    (Tenant.applyTestPhoneNumbers opts.testPhoneNumbers r2) with hr3
  cases hrec : Tenant.applyRecaptcha opts.recaptchaConfig r3 with
  | error e =>
      rw [hrec] at h
      simp [bind, Except.bind, Functor.map, Except.map] at h
  | ok r4 =>
  rw [hrec] at h
  simp only [bind, Except.bind] at h
  cases hpwd : Tenant.applyPasswordPolicy opts.passwordPolicyConfig r4 with
  | error e =>
      rw [hpwd] at h
      simp [bind, Except.bind, Functor.map, Except.map] at h
  | ok r5 =>
  rw [hpwd] at h
  simp only [pure, Except.pure, Except.ok.injEq] at h
  have e1 : req.testPhoneNumbers = r5.testPhoneNumbers := by
    rw [← h, Tenant.applyEmailPrivacy_testPhoneNumbers]
  have e2 : r5.testPhoneNumbers = r4.testPhoneNumbers :=
    Tenant.applyPasswordPolicy_testPhoneNumbers _ _ _ hpwd
  have e3 : r4.testPhoneNumbers = r3.testPhoneNumbers :=
    Tenant.applyRecaptcha_testPhoneNumbers _ _ _ hrec
  have e4 : r3.testPhoneNumbers
      = (Tenant.applyTestPhoneNumbers opts.testPhoneNumbers r2).testPhoneNumbers := by
    rw [hr3, Tenant.applySmsRegion_testPhoneNumbers]
  have e5 : r2.testPhoneNumbers = none := by
    rw [Tenant.applyMultiFactor_testPhoneNumbers _ _ _ hmfa, hr1,
      Tenant.applyAnonymousSignIn_testPhoneNumbers,
      Tenant.applyDisplayName_testPhoneNumbers,
      Tenant.emailSignInBase_testPhoneNumbers _ _ hbase]
  rw [e1, e2, e3, e4]
  cases htpn : opts.testPhoneNumbers <;>
    simp [Tenant.applyTestPhoneNumbers, e5]

/-- C9: `Tenant.buildServerRequest` treats a `null` `testPhoneNumbers`
asymmetrically: an update request (`createRequest` false) that succeeds
carries `testPhoneNumbers` translated to the empty map, clearing existing
entries, while a create request (`createRequest` true) whose earlier
validation steps pass throws a `FirebaseAuthError` with code
`invalid-argument`. -/
theorem C9_testPhoneNumbers_null_asymmetry :
    (∀ (opts : UpdateTenantRequest) (req : TenantOptionsServerRequest),
       opts.testPhoneNumbers = .null →
       Tenant.buildServerRequest opts false = .ok req →
       req.testPhoneNumbers = some []) ∧
    (∀ opts : UpdateTenantRequest,
       opts.testPhoneNumbers = .null →
       (∀ d, opts.displayName = some d → d.length ≠ 0) →
       (∀ c, opts.emailSignInConfig = some c → ∃ p, c.serverOutcome = .ok p) →
       ∃ e : FirebaseAuthError,
         Tenant.buildServerRequest opts true = .error e ∧
         e.code = AuthClientErrorCode.INVALID_ARGUMENT) := by
  constructor
  · intro opts req hnull h
    unfold Tenant.buildServerRequest at h
    cases hv : Tenant.validate opts false with
    | error e =>
        rw [hv] at h
        simp [bind, Except.bind] at h
    | ok u =>
        rw [hv] at h
        simp only [bind, Except.bind] at h
        have hfield := Tenant.assemble_testPhoneNumbers opts req h
        rw [hnull] at hfield
        exact hfield
  · intro opts hnull hdn hesc
    have hv : Tenant.validate opts true = .error
        { code := AuthClientErrorCode.INVALID_ARGUMENT
          message := "\"" ++ "CreateTenantRequest"
            ++ ".testPhoneNumbers\" must be a non-null object." } := by
      unfold Tenant.validate
      rw [hnull]
      cases hdn0 : opts.displayName with
      | none =>
          cases hesc0 : opts.emailSignInConfig with
          | none =>
              simp [bind, Except.bind, pure, Except.pure, throw, throwThe,
                MonadExceptOf.throw]
          | some c =>
              obtain ⟨p, hp⟩ := hesc c hesc0
              simp [bind, Except.bind, pure, Except.pure, hp, throw, throwThe,
                MonadExceptOf.throw]
      | some d =>
          have hd : ¬ d.length = 0 := hdn d hdn0
          cases hesc0 : opts.emailSignInConfig with
          | none =>
              simp [bind, Except.bind, pure, Except.pure, hd, throw, throwThe,
                MonadExceptOf.throw]
          | some c =>
              obtain ⟨p, hp⟩ := hesc c hesc0
              simp [bind, Except.bind, pure, Except.pure, hd, hp, throw, throwThe,
                MonadExceptOf.throw]
    refine ⟨{ code := AuthClientErrorCode.INVALID_ARGUMENT
              message := "\"" ++ "CreateTenantRequest"
                ++ ".testPhoneNumbers\" must be a non-null object." },
            ?_, rfl⟩
    unfold Tenant.buildServerRequest
    rw [hv]
    simp [bind, Except.bind]

/-- Witness for C9 at the options object whose only provided field is the
`null` test phone number map. -/
theorem C9_witness :
    ({ testPhoneNumbers := some [] } : TenantOptionsServerRequest).testPhoneNumbers
      = some [] ∧
    ∃ e : FirebaseAuthError,
      Tenant.buildServerRequest { testPhoneNumbers := .null } true = .error e ∧
      e.code = AuthClientErrorCode.INVALID_ARGUMENT :=
  ⟨C9_testPhoneNumbers_null_asymmetry.1 { testPhoneNumbers := .null }
      { testPhoneNumbers := some [] } rfl rfl,
   C9_testPhoneNumbers_null_asymmetry.2 { testPhoneNumbers := .null } rfl
     (fun _ hd => Option.noConfusion hd) (fun _ hc => Option.noConfusion hc)⟩

/-- A successful `matchTenantCapture` returns the suffix of the first
occurrence of `/tenants/` whose remaining input is free of line terminators:
the capture decomposes the input and no strictly earlier occurrence admits a
line-terminator-free suffix. -/
theorem matchTenantCapture_eq_some (l t : List Char)
    (h : matchTenantCapture l = some t) :
    ∃ pre : List Char, l = pre ++ tenantsPat ++ t ∧
      t.any isLineTerminator = false ∧
      ∀ pre2 t2, l = pre2 ++ tenantsPat ++ t2 →
        t2.any isLineTerminator = false → pre.length ≤ pre2.length := by
  induction l with
  | nil => simp [matchTenantCapture] at h
  | cons c rest ih =>
      rw [matchTenantCapture] at h
      by_cases hp : tenantsPat.isPrefixOf (c :: rest) = true
      · obtain ⟨u, hu⟩ : tenantsPat <+: (c :: rest) := List.isPrefixOf_iff_prefix.mp hp
        have hdrop : (c :: rest).drop tenantsPat.length = u := by
          rw [← hu, List.drop_left]
        rw [if_pos hp, hdrop] at h
        by_cases hnl : u.any isLineTerminator = true
        · rw [if_pos hnl] at h
          obtain ⟨pre', hdec, hnf, hmin⟩ := ih h
          refine ⟨c :: pre', ?_, hnf, ?_⟩
          · simp [hdec]
          · intro pre2 t2 hdec2 hnf2
            cases pre2 with
            | nil =>
                exfalso
                simp only [List.nil_append] at hdec2
                have ht2 : u = t2 := by
                  have := hu.trans hdec2
                  exact List.append_cancel_left this
                rw [ht2] at hnl
                rw [hnf2] at hnl
                exact Bool.false_ne_true hnl
            | cons c2 pre2' =>
                have hrest : rest = pre2' ++ tenantsPat ++ t2 := by
                  have := hdec2
                  simp only [List.cons_append] at this
                  exact (List.cons.injEq _ _ _ _).mp this |>.2
                have := hmin pre2' t2 hrest hnf2
                simpa [List.length_cons] using Nat.succ_le_succ this
        · rw [if_neg hnl] at h
          have ht : u = t := by
            injection h
          refine ⟨[], ?_, ?_, ?_⟩
          · simp [← ht, ← hu]
          · rw [← ht]
            exact Bool.not_eq_true _ ▸ (Bool.of_not_eq_true hnl)
          · intro pre2 t2 _ _
            exact Nat.zero_le _
      · rw [if_neg hp] at h
        obtain ⟨pre', hdec, hnf, hmin⟩ := ih h
        refine ⟨c :: pre', ?_, hnf, ?_⟩
        · simp [hdec]
        · intro pre2 t2 hdec2 hnf2
          cases pre2 with
          | nil =>
              exfalso
              simp only [List.nil_append] at hdec2
              apply hp
              rw [hdec2]
              exact List.isPrefixOf_iff_prefix.mpr (List.prefix_append _ _)
          | cons c2 pre2' =>
              have hrest : rest = pre2' ++ tenantsPat ++ t2 := by
                have := hdec2
                simp only [List.cons_append] at this
                exact (List.cons.injEq _ _ _ _).mp this |>.2
              have := hmin pre2' t2 hrest hnf2
              simpa [List.length_cons] using Nat.succ_le_succ this

/-- When `matchTenantCapture` fails, every occurrence of `/tenants/` in the
input is followed by a line terminator somewhere in its suffix. -/
theorem matchTenantCapture_eq_none (l : List Char)
    (h : matchTenantCapture l = none) :
    ∀ pre t, l = pre ++ tenantsPat ++ t → t.any isLineTerminator = true := by
  induction l with
  | nil =>
      intro pre t hdec
      exfalso
      have := congrArg List.length hdec
      simp [tenantsPat] at this
      omega
  | cons c rest ih =>
      intro pre t hdec
      rw [matchTenantCapture] at h
      by_cases hp : tenantsPat.isPrefixOf (c :: rest) = true
      · obtain ⟨u, hu⟩ : tenantsPat <+: (c :: rest) := List.isPrefixOf_iff_prefix.mp hp
        have hdrop : (c :: rest).drop tenantsPat.length = u := by
          rw [← hu, List.drop_left]
        rw [if_pos hp, hdrop] at h
        by_cases hnl : u.any isLineTerminator = true
        · rw [if_pos hnl] at h
          cases pre with
          | nil =>
              simp only [List.nil_append] at hdec
              have ht : u = t := by
                have := hu.trans hdec
                exact List.append_cancel_left this
              rw [← ht]
              exact hnl
          | cons c2 pre' =>
              have hrest : rest = pre' ++ tenantsPat ++ t := by
                have := hdec
                simp only [List.cons_append] at this
                exact (List.cons.injEq _ _ _ _).mp this |>.2
              exact ih h pre' t hrest
        · rw [if_neg hnl] at h
          exact absurd h (by simp)
      · rw [if_neg hp] at h
        cases pre with
        | nil =>
            exfalso
            simp only [List.nil_append] at hdec
            apply hp
            rw [hdec]
            exact List.isPrefixOf_iff_prefix.mpr (List.prefix_append _ _)
        | cons c2 pre' =>
            have hrest : rest = pre' ++ tenantsPat ++ t := by
              have := hdec
              simp only [List.cons_append] at this
              exact (List.cons.injEq _ _ _ _).mp this |>.2
            exact ih h pre' t hrest

/-- C10 counterexample: on a resource name with two `/tenants/` occurrences,
the extraction captures everything after the FIRST occurrence, not the
substring after the last one. -/
theorem C10_counterexample :
    Tenant.getTenantIdFromResourceName "projects/p/tenants/a/tenants/b"
      = some "a/tenants/b" ∧
    ("a/tenants/b" : String) ≠ "b" := by
  constructor
  · decide
  · decide

/-- C10 (amended): `getTenantIdFromResourceName` returns the suffix after the
first occurrence of `/tenants/` whose remainder contains no line terminator,
and `null` when no such occurrence exists; the `Tenant` constructor throws an
internal-error `FirebaseAuthError` exactly when the extraction returns `null`
or the extracted id is empty, and otherwise sets `tenantId` to the extracted
value. -/
theorem C10_tenantId_extraction :
    (∀ s t : String,
       Tenant.getTenantIdFromResourceName s = some t →
       ∃ pre : List Char, s.data = pre ++ tenantsPat ++ t.data ∧
         t.data.any isLineTerminator = false ∧
         ∀ pre2 t2, s.data = pre2 ++ tenantsPat ++ t2 →
           t2.any isLineTerminator = false → pre.length ≤ pre2.length) ∧
    (∀ s : String,
       Tenant.getTenantIdFromResourceName s = none →
       ∀ pre t, s.data = pre ++ tenantsPat ++ t → t.any isLineTerminator = true) ∧
    (∀ resp : TenantServerResponse,
       (∀ tid, Tenant.getTenantIdFromResourceName resp.name = some tid →
          tid ≠ "" →
          Tenant.construct resp = .ok
            { tenantId := tid
              displayName := resp.displayName
              anonymousSignInEnabled := resp.enableAnonymousUser.getD false }) ∧
       (∀ ten, Tenant.construct resp = .ok ten →
          Tenant.getTenantIdFromResourceName resp.name = some ten.tenantId ∧
          ten.tenantId ≠ "") ∧
       ((Tenant.getTenantIdFromResourceName resp.name = none ∨
         Tenant.getTenantIdFromResourceName resp.name = some "") →
         Tenant.construct resp = .error
           { code := AuthClientErrorCode.INTERNAL_ERROR
             message := "INTERNAL ASSERT FAILED: Invalid tenant response" })) := by
  refine ⟨?_, ?_, ?_⟩
  · intro s t h
    unfold Tenant.getTenantIdFromResourceName at h
    cases hm : matchTenantCapture s.data with
    | none => rw [hm] at h; simp at h
    | some l =>
        rw [hm] at h
        have h2 : String.mk l = t := Option.some.inj h
        rw [← h2]
        exact matchTenantCapture_eq_some s.data l hm
  · intro s h
    unfold Tenant.getTenantIdFromResourceName at h
    cases hm : matchTenantCapture s.data with
    | none => exact matchTenantCapture_eq_none s.data hm
    | some l => rw [hm] at h; simp at h
  · intro resp
    refine ⟨?_, ?_, ?_⟩
    · intro tid hm ht
      simp [Tenant.construct, hm, ht, pure, Except.pure]
    · intro ten h
      cases hm : Tenant.getTenantIdFromResourceName resp.name with
      | none =>
          simp [Tenant.construct, hm, throw, throwThe, MonadExceptOf.throw] at h
      | some tid =>
          by_cases ht : tid = ""
          · simp [Tenant.construct, hm, ht, throw, throwThe, MonadExceptOf.throw] at h
          · simp [Tenant.construct, hm, ht, pure, Except.pure] at h
            constructor
            · rw [← h]
            · rw [← h]
              exact ht
    · intro hcase
      cases hcase with
      | inl hm =>
          simp [Tenant.construct, hm, throw, throwThe, MonadExceptOf.throw]
      | inr hm =>
          simp [Tenant.construct, hm, throw, throwThe, MonadExceptOf.throw]

/-- Witness for C10 (amended) at a concrete well-formed resource name: the
extraction characterization holds and the constructor succeeds, assigning the
extracted tenant id. -/
theorem C10_witness :
    Tenant.construct { name := "projects/p1/tenants/t1" }
      = .ok { tenantId := "t1", displayName := none
              anonymousSignInEnabled := false } ∧
    ∃ pre : List Char,
      ("projects/p1/tenants/t1" : String).data
        = pre ++ tenantsPat ++ ("t1" : String).data ∧
      ("t1" : String).data.any isLineTerminator = false ∧
      ∀ pre2 t2, ("projects/p1/tenants/t1" : String).data = pre2 ++ tenantsPat ++ t2 →
        t2.any isLineTerminator = false → pre.length ≤ pre2.length :=
  ⟨(C10_tenantId_extraction.2.2 { name := "projects/p1/tenants/t1" }).1 "t1"
      (by decide) (by decide),
   C10_tenantId_extraction.1 "projects/p1/tenants/t1" "t1" (by decide)⟩
